import Mathlib

/-!
Shallow embedding of the relevance-ranking core of this repository:
the SVM retriever (`langchain/retrievers/svm.py`) and the DeepLake
search facade (`langchain/vectorstores/deeplake.py`).

Modelling conventions:
* Machine floats are modelled by exact rationals (`ℚ`); `1e-6` is `1/1000000`.
* The external scikit-learn solver (`LinearSVC.fit` + `decision_function`)
  is an oracle parameter: `_get_relevant_documents` receives the vector of
  decision values it produces for the augmented point set.  Every theorem
  quantifies over that oracle, constrained only by the shape fact that
  `decision_function` returns one value per input row.
* The external DeepLake vector store (`self.vectorstore.search`) is an
  oracle parameter mapping (query embedding, k) to a result bundle.
* `np.argsort` is modelled by a (stable) insertion sort of the index range;
  the claims proved below depend only on the result being a permutation
  of the index range sorted by descending similarity.
-/

/-- A LangChain `Document`: page content plus a metadata mapping
(modelled as an association list; `Document(page_content=t)` leaves the
metadata at its default, the empty mapping). -/
structure Document where
  page_content : String
  metadata : List (String × String) := []
deriving DecidableEq, Repr

/-- An embedding vector (a numpy row), as a list of rationals. -/
abbrev Vec := List ℚ

/-! ### `langchain/retrievers/svm.py` -/

/-- Model of `create_index`: embed every context with the external embedder.  The
thread pool fans out the independent `embed_query` calls and collects the
results back in input order, so the denotation is an order-preserving map. -/
def create_index (contexts : List String) (embed_query : String → Vec) : List Vec :=
  contexts.map embed_query

/-- The `SVMRetriever` pydantic object: the prebuilt index, the texts it
was built from, and the per-retriever configuration `k` and
`relevancy_threshold`.  (The `embeddings` model is passed separately as a
function where needed.) -/
structure SVMRetriever where
  index : List Vec
  texts : List String
  k : ℕ := 4
  relevancy_threshold : Option ℚ := none
deriving Repr

/-- Model of `SVMRetriever.from_texts`. -/
def SVMRetriever.from_texts (texts : List String) (embed_query : String → Vec)
    (k : ℕ := 4) (relevancy_threshold : Option ℚ := none) : SVMRetriever :=
  { index := create_index texts embed_query, texts := texts, k := k,
    relevancy_threshold := relevancy_threshold }

/-- Model of `SVMRetriever.from_documents`: `texts, metadatas = zip(*((d.page_content,
d.metadata) for d in documents))` extracts both components but only `texts`
is passed on; the metadata tuple is dropped.  (For an empty `documents` the
Python unpacking itself raises, so the model is used for nonempty input.) -/
def SVMRetriever.from_documents (documents : List Document) (embed_query : String → Vec)
    (k : ℕ := 4) (relevancy_threshold : Option ℚ := none) : SVMRetriever :=
  SVMRetriever.from_texts (documents.map (fun d => d.page_content)) embed_query
    k relevancy_threshold

/-- Stable descending insertion of index `i` into an index list already
ordered by descending similarity (the fold below inserts indices from the
highest down to 0, so `i` is always smaller than every index already
present): `i` goes in front of the first index whose value does not exceed
`i`'s, so among equal values the earlier index stays first. -/
def insertIdxDesc (similarities : List ℚ) (i : ℕ) : List ℕ → List ℕ
  | [] => [i]
  | j :: rest =>
    if similarities.getD j 0 ≤ similarities.getD i 0 then i :: j :: rest
    else j :: insertIdxDesc similarities i rest

/-- Model of `np.argsort(-similarities)`: the indices `0 .. len-1` ordered by
descending similarity value (realised here as a stable insertion sort; the
claims proved below depend only on the result being a permutation of the
index range). -/
def argsortDesc (similarities : List ℚ) : List ℕ :=
  (List.range similarities.length).foldr (insertIdxDesc similarities) []

/-- The determinism correction of `_get_relevant_documents`:
`zero_index = np.where(sorted_ix == 0)[0][0]` (first position holding row 0)
followed by
`sorted_ix[0], sorted_ix[zero_index] = sorted_ix[zero_index], sorted_ix[0]`
guarded by `if zero_index != 0`. -/
def rowZeroSwap (sorted_ix : List ℕ) : List ℕ :=
  let zero_index := List.indexOf 0 sorted_ix
  if zero_index = 0 then sorted_ix
  else
    let a := sorted_ix.getD 0 0
    let b := sorted_ix.getD zero_index 0
    (sorted_ix.set 0 b).set zero_index a

/-- Model of `np.min` over a row vector (numpy errors on an empty array; the
default 0 branch is never reached on the shapes the code produces). -/
def listMin : List ℚ → ℚ
  | [] => 0
  | a :: r => r.foldl min a

/-- Model of `np.max` over a row vector. -/
def listMax : List ℚ → ℚ
  | [] => 0
  | a :: r => r.foldl max a

/-- Model of `denominator = np.max(similarities) - np.min(similarities) + 1e-6;
normalized_similarities = (similarities - np.min(similarities)) / denominator`. -/
def normalizedSimilarities (similarities : List ℚ) : List ℚ :=
  let denominator := listMax similarities - listMin similarities + 1 / 1000000
  similarities.map (fun v => (v - listMin similarities) / denominator)

/-- Python list indexing `l[i]` for a possibly negative `i` (a negative
index wraps from the end, as in `self.texts[row - 1]` when `row = 0`). -/
def pyGetString (l : List String) (i : Int) : String :=
  let j := if i < 0 then (l.length : Int) + i else i
  l.getD j.toNat ""

/-- The inclusion test of the output loop:
`self.relevancy_threshold is None or
 normalized_similarities[row] >= self.relevancy_threshold`. -/
def thresholdOk (relevancy_threshold : Option ℚ) (normalized_similarities : List ℚ)
    (row : ℕ) : Bool :=
  match relevancy_threshold with
  | none => true
  | some t => decide (t ≤ normalized_similarities.getD row 0)

/-- The tail of `_get_relevant_documents` after the solver has produced the
decision values `similarities` for the augmented point set: argsort
descending, row-0 swap, min-max normalisation, then the walk over
`sorted_ix[1 : k + 1]` with the optional relevancy-threshold filter,
emitting `Document(page_content=self.texts[row - 1])`. -/
def svmTopK (similarities : List ℚ) (texts : List String) (k : ℕ)
    (relevancy_threshold : Option ℚ) : List Document :=
  let sorted_ix := rowZeroSwap (argsortDesc similarities)
  let normalized_similarities := normalizedSimilarities similarities
  ((sorted_ix.drop 1).take k).filterMap fun row =>
    if thresholdOk relevancy_threshold normalized_similarities row
    then some { page_content := pyGetString texts ((row : Int) - 1) }
    else none

/-- Model of `SVMRetriever._get_relevant_documents`, with the scikit-learn fit and
decision function abstracted as the oracle `solver`: it receives the
augmented point set `x = [query_embeds] + index` (whose labels `y` are
determined by `x`: 1 at row 0, 0 elsewhere) and returns the decision
values for all rows. -/
def getRelevantDocuments (r : SVMRetriever) (embed_query : String → Vec)
    (solver : List Vec → List ℚ) (query : String) : List Document :=
  let query_embeds := embed_query query
  let x := query_embeds :: r.index
  let similarities := solver x
  svmTopK similarities r.texts r.k r.relevancy_threshold

/-- The only error `_get_relevant_documents` raises itself: the
`ImportError` for a missing scikit-learn. -/
inductive SvmError where
  | dependencyMissing
deriving DecidableEq, Repr

/-- Model of `_get_relevant_documents` with its import guard: if scikit-learn is
unavailable the `ImportError` is raised; otherwise the computation above
runs.  The function contains no other raise of its own. -/
def getRelevantDocumentsE (sklearnAvailable : Bool) (r : SVMRetriever)
    (embed_query : String → Vec) (solver : List Vec → List ℚ)
    (query : String) : Except SvmError (List Document) :=
  if sklearnAvailable then
    Except.ok (getRelevantDocuments r embed_query solver query)
  else
    Except.error SvmError.dependencyMissing

/-! ### `maximal_marginal_relevance` (from `langchain.vectorstores.utils`) -/

/-- First-occurrence argmax over a list of candidate indices: the fold keeps
the earlier candidate on ties (only a strictly greater score replaces it). -/
def argmaxBy (f : ℕ → ℚ) : List ℕ → Option ℕ
  | [] => none
  | i :: rest => some (rest.foldl (fun b j => if f b < f j then j else b) i)

/-- Modelled from the spec: similarity of the query vector to candidate `i`
(`deeplake.py` imports `maximal_marginal_relevance` from
`langchain.vectorstores.utils`, which is not part of this source snapshot;
spec §4.3 step 1: "Compute similarity of the query vector to every candidate
vector (cosine similarity unless otherwise configured)" — the similarity
measure is abstracted as the parameter `sim`). -/
def querySimilarity (sim : Vec → Vec → ℚ) (q : Vec) (embs : List Vec) (i : ℕ) : ℚ :=
  sim q (embs.getD i [])

/-- Modelled from the spec: the redundancy score of candidate `i` — "the
maximum similarity between candidate `i` and every already-selected
candidate (0 if none selected yet)" (spec §4.3 step 3a). -/
def redundancy (sim : Vec → Vec → ℚ) (embs : List Vec) (selected : List ℕ) (i : ℕ) : ℚ :=
  match selected.map (fun j => sim (embs.getD i []) (embs.getD j [])) with
  | [] => 0
  | a :: r => r.foldl max a

/-- Modelled from the spec: the combined score
`lambda * similarity(query, i) - (1 - lambda) * redundancy(i)`
(spec §4.3 step 3b). -/
def combinedScore (sim : Vec → Vec → ℚ) (q : Vec) (embs : List Vec) (lam : ℚ)
    (selected : List ℕ) (i : ℕ) : ℚ :=
  lam * querySimilarity sim q embs i - (1 - lam) * redundancy sim embs selected i

/-- Modelled from the spec: the greedy selection loop of spec §4.3 step 3 —
repeat until the target count is reached or no candidates remain; each round
moves the remaining candidate with the highest combined score (ties broken
by original candidate order, first occurrence wins) from `remaining` to the
selection.  `acc` holds the selection so far in reverse order; `fuel` is the
number of rounds still allowed. -/
def mmrLoop (sim : Vec → Vec → ℚ) (q : Vec) (embs : List Vec) (lam : ℚ) :
    ℕ → List ℕ → List ℕ → List ℕ
  | 0, _, acc => acc.reverse
  | fuel + 1, remaining, acc =>
    match argmaxBy (combinedScore sim q embs lam acc) remaining with
    | none => acc.reverse
    | some b => mmrLoop sim q embs lam fuel (remaining.erase b) (b :: acc)

/-- Modelled from the spec: `maximal_marginal_relevance` from
`langchain.vectorstores.utils` (imported by `deeplake.py` but not in this
source snapshot), per spec §4.3: greedy diversity-aware selection of
`min(k, number of candidates)` candidate indices out of
`0 .. len(embedding_list) - 1`, balancing query similarity against
redundancy with weight `lambda_mult`. -/
def maximal_marginal_relevance (sim : Vec → Vec → ℚ) (query_embedding : Vec)
    (embedding_list : List Vec) (k : ℕ) (lambda_mult : ℚ) : List ℕ :=
  mmrLoop sim query_embedding embedding_list lambda_mult
    (min k embedding_list.length) (List.range embedding_list.length) []

/-! ### `langchain/vectorstores/deeplake.py`, `DeepLake._search` -/

/-- The bundle returned by the external `self.vectorstore.search`
collaborator for `return_tensors=["embedding", "metadata", "text"]`:
parallel lists of scores, embeddings, metadata and texts. -/
structure StoreResult where
  score : List ℚ
  embedding : List Vec
  metadata : List (List (String × String))
  text : List String
deriving Repr

/-- The external vector store oracle: maps the query embedding (possibly
absent) and the requested candidate count `k` to a result bundle.  The
pass-through arguments `distance_metric`, `filter` and `exec_option` are
forwarded unchanged and are absorbed into the oracle. -/
abbrev Store := Option Vec → ℕ → StoreResult

/-- Errors raised by `_search` itself on the non-TQL path: the `ValueError`
for an unresolvable embedding, and the `TypeError` that `numpy` raises if
MMR is attempted with no query embedding at all. -/
inductive DLError where
  | missingEmbedder
  | noneEmbeddingForMmr
deriving DecidableEq, Repr

/-- Return type of `_search`: either a plain document list or, with
`return_score=True`, a list of `(document, score)` pairs. -/
inductive DLOutput where
  | docs : List Document → DLOutput
  | scored : List (Document × ℚ) → DLOutput
deriving DecidableEq, Repr

/-- The `_embedding_function` resolution at the top of `_search`: an explicitly
passed `embedding_function` wins (with `.embed_query` unwrapping for an
`Embeddings` object, transparent here), else the instance's configured
`self._embedding_function`, else none. -/
def resolveEf (embedding_function selfEf : Option (String → Vec)) : Option (String → Vec) :=
  match embedding_function with
  | some f => some f
  | none => selfEf

/-- Python truthiness of the optional `query` string (`_ef(query) if query
else None`): an absent query and the empty string are both falsy. -/
def strTruthy : Option String → Bool
  | none => false
  | some s => !(s == "")

/-- The embedding-resolution block of `_search` (lines 330–352): if an
explicit `embedding` was passed it is used as-is (the `list → np.float32`
conversion is the identity in this rational model); otherwise the resolved
embedding function is required — `ValueError` if there is none — and is
applied to the query when the query is truthy, while a falsy query leaves
the embedding as `None`. -/
def resolveQueryEmbedding (query : Option String) (embedding : Option Vec)
    (embedding_function selfEf : Option (String → Vec)) : Except DLError (Option Vec) :=
  match embedding with
  | some v => Except.ok (some v)
  | none =>
    match resolveEf embedding_function selfEf with
    | none => Except.error DLError.missingEmbedder
    | some f =>
      Except.ok (match query with
        | some s => if s = "" then none else some (f s)
        | none => none)

/-- The post-store tail of `_search` (lines 363–391): optionally rerank via
`maximal_marginal_relevance` (reading `scores`, `texts`, `metadatas` back
through the selected indices), build `Document(page_content=text,
metadata=metadata)` per row, and zip in the scores when `return_score`. -/
def postSearch (sim : Vec → Vec → ℚ) (queryEmb : Option Vec) (k : ℕ)
    (use_maximal_marginal_relevance : Bool) (lambda_mult : ℚ)
    (return_score : Bool) (result : StoreResult) : Except DLError DLOutput :=
  let step : Except DLError (List ℚ × List String × List (List (String × String))) :=
    if use_maximal_marginal_relevance then
      match queryEmb with
      | none => Except.error DLError.noneEmbeddingForMmr
      | some qe =>
        let indices := maximal_marginal_relevance sim qe result.embedding
          (min k result.text.length) lambda_mult
        Except.ok (indices.map (fun i => result.score.getD i 0),
          indices.map (fun i => result.text.getD i ""),
          indices.map (fun i => result.metadata.getD i []))
    else
      Except.ok (result.score, result.text, result.metadata)
  match step with
  | Except.error e => Except.error e
  | Except.ok (scores, texts, metadatas) =>
    let docs := (texts.zip metadatas).map fun p =>
      { page_content := p.1, metadata := p.2 : Document }
    Except.ok (if return_score then DLOutput.scored (docs.zip scores)
      else DLOutput.docs docs)

/-- Model of `DeepLake._search` on the non-TQL path (no `tql_query` kwarg, so the
early `_search_tql` return is not taken): resolve the query embedding,
query the collaborator store for `fetch_k if use_maximal_marginal_relevance
else k` candidates, then post-process. -/
def deepLakeSearch (store : Store) (sim : Vec → Vec → ℚ) (query : Option String)
    (embedding : Option Vec) (embedding_function selfEf : Option (String → Vec))
    (k : ℕ) (use_maximal_marginal_relevance : Bool) (fetch_k : ℕ)
    (return_score : Bool) (lambda_mult : ℚ) : Except DLError DLOutput :=
  match resolveQueryEmbedding query embedding embedding_function selfEf with
  | Except.error e => Except.error e
  | Except.ok emb =>
    let result := store emb (if use_maximal_marginal_relevance then fetch_k else k)
    postSearch sim emb k use_maximal_marginal_relevance lambda_mult return_score result

/-- The number of documents in a `_search` return value. -/
def DLOutput.count : DLOutput → ℕ
  | DLOutput.docs l => l.length
  | DLOutput.scored l => l.length

/-! ### Helper lemmas: argsort and the row-0 swap -/

theorem insertIdxDesc_perm (sims : List ℚ) (i : ℕ) (l : List ℕ) :
    (insertIdxDesc sims i l).Perm (i :: l) := by
  induction l with
  | nil => exact List.Perm.refl _
  | cons j rest ih =>
    simp only [insertIdxDesc]
    split
    · exact List.Perm.refl _
    · exact (List.Perm.cons j ih).trans (List.Perm.swap i j rest)

theorem foldr_insertIdxDesc_perm (sims : List ℚ) (l : List ℕ) :
    (l.foldr (insertIdxDesc sims) []).Perm l := by
  induction l with
  | nil => exact List.Perm.refl _
  | cons i rest ih =>
    exact (insertIdxDesc_perm sims i _).trans (List.Perm.cons i ih)

theorem argsortDesc_perm (sims : List ℚ) :
    (argsortDesc sims).Perm (List.range sims.length) :=
  foldr_insertIdxDesc_perm sims (List.range sims.length)

theorem argsortDesc_length (sims : List ℚ) :
    (argsortDesc sims).length = sims.length := by
  simpa using (argsortDesc_perm sims).length_eq

theorem argsortDesc_nodup (sims : List ℚ) : (argsortDesc sims).Nodup :=
  (argsortDesc_perm sims).symm.nodup (List.nodup_range _)

theorem mem_argsortDesc (sims : List ℚ) (i : ℕ) :
    i ∈ argsortDesc sims ↔ i < sims.length := by
  rw [(argsortDesc_perm sims).mem_iff, List.mem_range]

theorem rowZeroSwap_length (l : List ℕ) : (rowZeroSwap l).length = l.length := by
  simp only [rowZeroSwap]
  split <;> simp

theorem rowZeroSwap_subset (l : List ℕ) (h0 : 0 ∈ l) {x : ℕ}
    (hx : x ∈ rowZeroSwap l) : x ∈ l := by
  have hne : 0 < l.length := List.length_pos.mpr (List.ne_nil_of_mem h0)
  have hzi : List.indexOf 0 l < l.length := List.indexOf_lt_length.mpr h0
  simp only [rowZeroSwap] at hx
  split at hx
  · exact hx
  · rcases List.mem_or_eq_of_mem_set hx with hx' | rfl
    · rcases List.mem_or_eq_of_mem_set hx' with hx'' | rfl
      · exact hx''
      · rw [List.getD_eq_getElem l 0 hzi]
        exact List.getElem_mem hzi
    · rw [List.getD_eq_getElem l 0 hne]
      exact List.getElem_mem hne

theorem rowZeroSwap_drop_one_ne_zero (l : List ℕ) (hnd : l.Nodup) (h0 : 0 ∈ l) :
    ∀ x ∈ (rowZeroSwap l).drop 1, x ≠ 0 := by
  have hne : 0 < l.length := List.length_pos.mpr (List.ne_nil_of_mem h0)
  have hzi : List.indexOf 0 l < l.length := List.indexOf_lt_length.mpr h0
  have hl_zi : l[List.indexOf 0 l] = 0 := List.getElem_indexOf hzi
  intro x hx
  obtain ⟨j, hj, hval⟩ := List.getElem_of_mem hx
  rw [List.getElem_drop] at hval
  have hlen : (rowZeroSwap l).length = l.length := rowZeroSwap_length l
  have hj' : 1 + j < l.length := by
    have := hj
    simp only [List.length_drop, hlen] at this
    omega
  intro hx0
  subst hx0
  simp only [rowZeroSwap] at hval
  split at hval
  · -- zero_index = 0, so l[0] = 0; no later position can also hold 0
    rename_i hcase
    have h00 : l[0] = 0 := by simp only [hcase] at hl_zi; exact hl_zi
    have : l[1 + j] = l[0] := by rw [hval, h00]
    have := (hnd.getElem_inj_iff).mp this
    omega
  · rename_i hcase
    have h1j : 1 + j < ((l.set 0 (l.getD (List.indexOf 0 l) 0)).set
        (List.indexOf 0 l) (l.getD 0 0)).length := by simpa using hj'
    rw [List.getElem_set] at hval
    split at hval
    · -- position 1 + j is the swap target: it now holds the old head l[0]
      rename_i hpos
      rw [List.getD_eq_getElem l 0 hne] at hval
      have : l[0] = l[List.indexOf 0 l] := by rw [hval, hl_zi]
      have := (hnd.getElem_inj_iff).mp this
      omega
    · rw [List.getElem_set] at hval
      split at hval
      · omega
      · have : l[1 + j] = l[List.indexOf 0 l] := by rw [hval, hl_zi]
        have := (hnd.getElem_inj_iff).mp this
        omega

/-! ### Helper lemmas: fold-based min and max -/

theorem foldl_min_le_init (r : List ℚ) : ∀ a : ℚ, r.foldl min a ≤ a := by
  induction r with
  | nil => intro a; exact le_refl a
  | cons b r ih =>
    intro a
    exact le_trans (ih (min a b)) (min_le_left a b)

theorem foldl_min_le_mem (r : List ℚ) : ∀ (a x : ℚ), x ∈ r → r.foldl min a ≤ x := by
  induction r with
  | nil => intro a x hx; cases hx
  | cons b r ih =>
    intro a x hx
    rcases List.mem_cons.mp hx with rfl | hx'
    · exact le_trans (foldl_min_le_init r (min a x)) (min_le_right a x)
    · exact ih (min a b) x hx'

theorem init_le_foldl_max (r : List ℚ) : ∀ a : ℚ, a ≤ r.foldl max a := by
  induction r with
  | nil => intro a; exact le_refl a
  | cons b r ih =>
    intro a
    exact le_trans (le_max_left a b) (ih (max a b))

theorem mem_le_foldl_max (r : List ℚ) : ∀ (a x : ℚ), x ∈ r → x ≤ r.foldl max a := by
  induction r with
  | nil => intro a x hx; cases hx
  | cons b r ih =>
    intro a x hx
    rcases List.mem_cons.mp hx with rfl | hx'
    · exact le_trans (le_max_right a x) (init_le_foldl_max r (max a x))
    · exact ih (max a b) x hx'

theorem listMin_le_of_mem {l : List ℚ} {x : ℚ} (hx : x ∈ l) : listMin l ≤ x := by
  cases l with
  | nil => cases hx
  | cons a r =>
    rcases List.mem_cons.mp hx with rfl | hx'
    · exact foldl_min_le_init r x
    · exact foldl_min_le_mem r a x hx'

theorem le_listMax_of_mem {l : List ℚ} {x : ℚ} (hx : x ∈ l) : x ≤ listMax l := by
  cases l with
  | nil => cases hx
  | cons a r =>
    rcases List.mem_cons.mp hx with rfl | hx'
    · exact init_le_foldl_max r x
    · exact mem_le_foldl_max r a x hx'

theorem pyGetString_of_pos (texts : List String) (r : ℕ) (hr : 1 ≤ r) :
    pyGetString texts ((r : Int) - 1) = texts.getD (r - 1) "" := by
  simp only [pyGetString]
  have hnn : ¬ ((r : Int) - 1 < 0) := by omega
  rw [if_neg hnn]
  congr 1
  omega

/-! ### Helper lemmas: lengths of guarded filterMaps -/

theorem length_filterMap_if_true {α β : Type} (g : α → β) (p : α → Bool)
    (l : List α) (hp : ∀ x ∈ l, p x = true) :
    (l.filterMap fun x => if p x then some (g x) else none).length = l.length := by
  induction l with
  | nil => rfl
  | cons a l ih =>
    rw [List.filterMap_cons]
    rw [if_pos (hp a (List.mem_cons_self a l))]
    simp only [List.length_cons]
    rw [ih (fun x hx => hp x (List.mem_cons_of_mem a hx))]

theorem length_filterMap_if_mono {α β : Type} (g h : α → β) (p q : α → Bool)
    (l : List α) (himp : ∀ x ∈ l, q x = true → p x = true) :
    (l.filterMap fun x => if q x then some (g x) else none).length ≤
    (l.filterMap fun x => if p x then some (h x) else none).length := by
  induction l with
  | nil => exact le_refl 0
  | cons a l ih =>
    have ih' := ih (fun x hx => himp x (List.mem_cons_of_mem a hx))
    cases hq : q a with
    | true =>
      have hpa := himp a (List.mem_cons_self a l) hq
      simp only [List.filterMap_cons, hq, hpa, if_true, List.length_cons]
      omega
    | false =>
      simp only [List.filterMap_cons, hq]
      cases hp : p a with
      | true =>
        simp only [if_true, List.length_cons]
        exact le_trans ih' (Nat.le_succ _)
      | false =>
        simpa using ih'

/-! ### Claim theorems for the SVM retriever -/

/-- C1: for every decision-value vector (one value per augmented row: the
injected query row plus one row per index text) and every configuration,
each document returned after the row-0 swap corresponds to an index row
`r` with `1 ≤ r ≤ len(texts)`, mapped back as `texts[r - 1]`; the injected
query row (row 0) is never among the returned documents. -/
theorem svm_returned_rows_exclude_query_row (sims : List ℚ) (texts : List String)
    (k : ℕ) (t : Option ℚ) (hlen : sims.length = texts.length + 1) :
    ∀ d ∈ svmTopK sims texts k t, ∃ r : ℕ, 1 ≤ r ∧ r ≤ texts.length ∧
      d = { page_content := texts.getD (r - 1) "", metadata := [] } := by
  intro d hd
  simp only [svmTopK] at hd
  obtain ⟨row, hrow, hfd⟩ := List.mem_filterMap.mp hd
  have hrow_drop : row ∈ (rowZeroSwap (argsortDesc sims)).drop 1 :=
    List.mem_of_mem_take hrow
  have h0mem : 0 ∈ argsortDesc sims := by
    rw [mem_argsortDesc]; omega
  have hrow_ne : row ≠ 0 :=
    rowZeroSwap_drop_one_ne_zero _ (argsortDesc_nodup sims) h0mem row hrow_drop
  have hrow_mem : row ∈ argsortDesc sims :=
    rowZeroSwap_subset _ h0mem (List.mem_of_mem_drop hrow_drop)
  have hrow_lt : row < sims.length := (mem_argsortDesc sims row).mp hrow_mem
  refine ⟨row, by omega, by omega, ?_⟩
  split at hfd
  · have hde := Option.some.inj hfd
    rw [← hde, pyGetString_of_pos texts row (by omega)]
  · cases hfd

/-- C2: the result list has length at most `k` and at most the number of
index rows; with no relevancy threshold and at least `k` index rows the
length is exactly `k` — a short result is an ordinary value of the
function, never an error and never padded. -/
theorem svm_result_cardinality (sims : List ℚ) (texts : List String) (k : ℕ)
    (t : Option ℚ) (hlen : sims.length = texts.length + 1) :
    (svmTopK sims texts k t).length ≤ k ∧
    (svmTopK sims texts k t).length ≤ texts.length ∧
    (t = none → k ≤ texts.length → (svmTopK sims texts k t).length = k) := by
  have hlist : (((rowZeroSwap (argsortDesc sims)).drop 1).take k).length
      = min k texts.length := by
    simp [List.length_take, List.length_drop, rowZeroSwap_length,
      argsortDesc_length, hlen]
  have hle : (svmTopK sims texts k t).length ≤ min k texts.length := by
    simp only [svmTopK]
    exact le_trans (List.length_filterMap_le _ _) (le_of_eq hlist)
  refine ⟨le_trans hle (Nat.min_le_left _ _), le_trans hle (Nat.min_le_right _ _), ?_⟩
  intro ht hk
  subst ht
  have heq : (svmTopK sims texts k none).length = min k texts.length := by
    simp only [svmTopK]
    exact (length_filterMap_if_true _ _ _ (fun x _ => rfl)).trans hlist
  omega

/-- C3: for the same decision values and index, raising the relevancy
threshold never increases the number of returned documents. -/
theorem svm_threshold_monotone (sims : List ℚ) (texts : List String) (k : ℕ)
    (t1 t2 : ℚ) (h12 : t1 ≤ t2) :
    (svmTopK sims texts k (some t2)).length ≤
    (svmTopK sims texts k (some t1)).length := by
  simp only [svmTopK]
  refine length_filterMap_if_mono _ _ _ _ _ ?_
  intro x hx hq
  simp only [thresholdOk, decide_eq_true_eq] at hq ⊢
  exact le_trans h12 hq

/-- C4: every normalized score is exactly
`(value[i] - min) / (max - min + 1e-6)` with `min`/`max` ranging over all
rows (query row included), and lies in the closed interval `[0, 1]`. -/
theorem svm_normalized_scores (sims : List ℚ) (i : ℕ) (hi : i < sims.length) :
    (normalizedSimilarities sims).getD i 0 =
      (sims.getD i 0 - listMin sims) / (listMax sims - listMin sims + 1 / 1000000) ∧
    0 ≤ (normalizedSimilarities sims).getD i 0 ∧
    (normalizedSimilarities sims).getD i 0 ≤ 1 := by
  have hi' : i < (normalizedSimilarities sims).length := by
    simpa [normalizedSimilarities] using hi
  have hmap : (normalizedSimilarities sims).getD i 0 =
      (sims.getD i 0 - listMin sims) / (listMax sims - listMin sims + 1 / 1000000) := by
    rw [List.getD_eq_getElem _ _ hi', List.getD_eq_getElem _ _ hi]
    simp [normalizedSimilarities]
  have hmem : sims.getD i 0 ∈ sims := by
    rw [List.getD_eq_getElem _ _ hi]
    exact List.getElem_mem hi
  have hminle : listMin sims ≤ sims.getD i 0 := listMin_le_of_mem hmem
  have hlemax : sims.getD i 0 ≤ listMax sims := le_listMax_of_mem hmem
  have hdenom : (0 : ℚ) < listMax sims - listMin sims + 1 / 1000000 := by
    have h6 : (0 : ℚ) < 1 / 1000000 := by norm_num
    linarith
  refine ⟨hmap, ?_, ?_⟩
  · rw [hmap]
    exact div_nonneg (by linarith) (le_of_lt hdenom)
  · rw [hmap]
    rw [div_le_one hdenom]
    linarith

/-- Witness for C1 at a concrete input: decision values `[5, 3, 9, 1]`
(query row plus three index rows) and texts `["a", "b", "c"]`. -/
theorem svm_returned_rows_exclude_query_row_witness :
    ([5, 3, 9, 1] : List ℚ).length = ["a", "b", "c"].length + 1 ∧
    ∀ d ∈ svmTopK [5, 3, 9, 1] ["a", "b", "c"] 2 none, ∃ r : ℕ,
      1 ≤ r ∧ r ≤ ["a", "b", "c"].length ∧
      d = { page_content := ["a", "b", "c"].getD (r - 1) "", metadata := [] } :=
  ⟨rfl, svm_returned_rows_exclude_query_row [5, 3, 9, 1] ["a", "b", "c"] 2 none rfl⟩

/-- Witness for C2 at a concrete input. -/
theorem svm_result_cardinality_witness :
    ([5, 3, 9, 1] : List ℚ).length = ["a", "b", "c"].length + 1 ∧
    ((svmTopK [5, 3, 9, 1] ["a", "b", "c"] 2 none).length ≤ 2 ∧
     (svmTopK [5, 3, 9, 1] ["a", "b", "c"] 2 none).length ≤ ["a", "b", "c"].length ∧
     ((none : Option ℚ) = none → 2 ≤ ["a", "b", "c"].length →
      (svmTopK [5, 3, 9, 1] ["a", "b", "c"] 2 none).length = 2)) :=
  ⟨rfl, svm_result_cardinality [5, 3, 9, 1] ["a", "b", "c"] 2 none rfl⟩

/-- Witness for C3 at a concrete input: thresholds `1/2 ≤ 3/4`. -/
theorem svm_threshold_monotone_witness :
    (1 : ℚ) / 2 ≤ 3 / 4 ∧
    (svmTopK [5, 3, 9, 1] ["a", "b", "c"] 2 (some (3 / 4))).length ≤
    (svmTopK [5, 3, 9, 1] ["a", "b", "c"] 2 (some (1 / 2))).length :=
  ⟨by norm_num,
   svm_threshold_monotone [5, 3, 9, 1] ["a", "b", "c"] 2 (1 / 2) (3 / 4) (by norm_num)⟩

/-- Witness for C4 at a concrete input: decision values `[1, 3, 2]`, row 1. -/
theorem svm_normalized_scores_witness :
    1 < ([1, 3, 2] : List ℚ).length ∧
    ((normalizedSimilarities [1, 3, 2]).getD 1 0 =
      (([1, 3, 2] : List ℚ).getD 1 0 - listMin [1, 3, 2]) /
        (listMax [1, 3, 2] - listMin [1, 3, 2] + 1 / 1000000) ∧
     0 ≤ (normalizedSimilarities [1, 3, 2]).getD 1 0 ∧
     (normalizedSimilarities [1, 3, 2]).getD 1 0 ≤ 1) :=
  ⟨by norm_num, svm_normalized_scores [1, 3, 2] 1 (by norm_num)⟩

/-- C5 counterexample: on an index with zero rows, `_get_relevant_documents`
does not fail with a distinct `EmptyIndex` error.  At this concrete input
(scikit-learn importable, an embedder, and decision values from the solver —
one per row of the one-row augmented set) the call returns an ordinary empty
result list; the function's only own failure kind is the `ImportError` for a
missing dependency. -/
theorem svm_empty_index_counterexample :
    getRelevantDocumentsE true { index := [], texts := [] } (fun _ => [1])
      (fun x => x.map (fun _ => 0)) "query" = Except.ok [] := rfl

/-- C5 amended: invoked on an index with zero rows,
`_get_relevant_documents` raises no `EmptyIndex` error of its own — no such
error kind exists in the function.  Whenever the external solver yields its
decision values (one per row of the one-row augmented set), the call
returns the empty list as an ordinary success; the only error the function
itself raises is the dependency `ImportError`. -/
theorem svm_empty_index_returns_ok_empty (embed_query : String → Vec)
    (solver : List Vec → List ℚ) (query : String) (k : ℕ) (t : Option ℚ)
    (hsolver : (solver [embed_query query]).length = 1) :
    getRelevantDocumentsE true
      { index := [], texts := [], k := k, relevancy_threshold := t }
      embed_query solver query = Except.ok [] := by
  obtain ⟨s, hs⟩ := List.length_eq_one.mp hsolver
  simp only [getRelevantDocumentsE, if_true, getRelevantDocuments]
  rw [hs]
  have hrange : List.range 1 = [0] := rfl
  have hsort : argsortDesc [s] = [0] := by
    simp [argsortDesc, hrange, insertIdxDesc]
  simp [svmTopK, hsort, rowZeroSwap]

/-- Witness for the amended C5 at a concrete input. -/
theorem svm_empty_index_returns_ok_empty_witness :
    (((fun x => x.map (fun _ => (0 : ℚ))) : List Vec → List ℚ)
        [(fun _ => ([1] : Vec)) "q"]).length = 1 ∧
    getRelevantDocumentsE true
      { index := [], texts := [], k := 2, relevancy_threshold := some 1 }
      (fun _ => [1]) (fun x => x.map (fun _ => 0)) "q" = Except.ok [] :=
  ⟨rfl, svm_empty_index_returns_ok_empty (fun _ => [1])
    (fun x => x.map (fun _ => 0)) "q" 2 (some 1) rfl⟩

/-- C9: `from_documents` keeps only the page contents — the retriever built
from documents stores `texts = map page_content documents` and nothing
else of them, so two document lists with equal contents and arbitrarily
different metadata build the same retriever; and every document returned
by `_get_relevant_documents` carries the default empty metadata. -/
theorem svm_from_documents_metadata_discarded (documents : List Document)
    (embed_query : String → Vec) (k : ℕ) (t : Option ℚ)
    (hne : documents ≠ []) :
    (SVMRetriever.from_documents documents embed_query k t).texts
      = documents.map (fun d => d.page_content) ∧
    (∀ documents' : List Document,
      documents'.map (fun d => d.page_content)
          = documents.map (fun d => d.page_content) →
      SVMRetriever.from_documents documents' embed_query k t
        = SVMRetriever.from_documents documents embed_query k t) ∧
    (∀ (solver : List Vec → List ℚ) (query : String),
      ∀ d ∈ getRelevantDocuments
        (SVMRetriever.from_documents documents embed_query k t)
        embed_query solver query, d.metadata = []) := by
  refine ⟨rfl, ?_, ?_⟩
  · intro documents' h
    simp only [SVMRetriever.from_documents, h]
  · intro solver query d hd
    simp only [getRelevantDocuments, svmTopK] at hd
    obtain ⟨row, _, hfd⟩ := List.mem_filterMap.mp hd
    split at hfd
    · cases Option.some.inj hfd
      rfl
    · cases hfd

/-- Witness for C9 at a concrete input: one document carrying nonempty
metadata. -/
theorem svm_from_documents_metadata_discarded_witness :
    ([{ page_content := "x", metadata := [("k", "v")] }] : List Document) ≠ [] ∧
    ((SVMRetriever.from_documents [{ page_content := "x", metadata := [("k", "v")] }]
        (fun _ => [1]) 4 none).texts
      = ([{ page_content := "x", metadata := [("k", "v")] }] : List Document).map
          (fun d => d.page_content) ∧
    (∀ documents' : List Document,
      documents'.map (fun d => d.page_content)
          = ([{ page_content := "x", metadata := [("k", "v")] }] : List Document).map
              (fun d => d.page_content) →
      SVMRetriever.from_documents documents' (fun _ => [1]) 4 none
        = SVMRetriever.from_documents [{ page_content := "x", metadata := [("k", "v")] }]
            (fun _ => [1]) 4 none) ∧
    (∀ (solver : List Vec → List ℚ) (query : String),
      ∀ d ∈ getRelevantDocuments
        (SVMRetriever.from_documents [{ page_content := "x", metadata := [("k", "v")] }]
          (fun _ => [1]) 4 none)
        (fun _ => [1]) solver query, d.metadata = [])) :=
  ⟨by simp,
   svm_from_documents_metadata_discarded [{ page_content := "x", metadata := [("k", "v")] }]
     (fun _ => [1]) 4 none (by simp)⟩

/-! ### Helper lemmas: the MMR selection loop -/

theorem foldl_argmax_mem (f : ℕ → ℚ) : ∀ (l : List ℕ) (a : ℕ),
    l.foldl (fun b j => if f b < f j then j else b) a ∈ a :: l := by
  intro l
  induction l with
  | nil => intro a; exact List.mem_singleton.mpr rfl
  | cons x xs ih =>
    intro a
    simp only [List.foldl_cons]
    rcases List.mem_cons.mp (ih (if f a < f x then x else a)) with heq | hmem
    · rw [heq]
      split
      · exact List.mem_cons_of_mem a (List.mem_cons_self x xs)
      · exact List.mem_cons_self a _
    · exact List.mem_cons_of_mem a (List.mem_cons_of_mem x hmem)

theorem argmaxBy_mem (f : ℕ → ℚ) (l : List ℕ) (b : ℕ)
    (h : argmaxBy f l = some b) : b ∈ l := by
  cases l with
  | nil => cases h
  | cons i rest =>
    simp only [argmaxBy, Option.some.injEq] at h
    rw [← h]
    exact foldl_argmax_mem f rest i

theorem mmrLoop_length (sim : Vec → Vec → ℚ) (q : Vec) (embs : List Vec) (lam : ℚ) :
    ∀ (fuel : ℕ) (rem acc : List ℕ), fuel ≤ rem.length →
      (mmrLoop sim q embs lam fuel rem acc).length = fuel + acc.length := by
  intro fuel
  induction fuel with
  | zero =>
    intro rem acc h
    simp [mmrLoop]
  | succ n ih =>
    intro rem acc h
    cases rem with
    | nil => simp at h
    | cons i rest =>
      have harg : argmaxBy (combinedScore sim q embs lam acc) (i :: rest)
          = some (rest.foldl (fun b j =>
              if combinedScore sim q embs lam acc b < combinedScore sim q embs lam acc j
              then j else b) i) := rfl
      have hbmem := argmaxBy_mem _ _ _ harg
      simp only [mmrLoop, harg]
      have herase : ((i :: rest).erase (rest.foldl (fun b j =>
          if combinedScore sim q embs lam acc b < combinedScore sim q embs lam acc j
          then j else b) i)).length = rest.length := by
        rw [List.length_erase_of_mem hbmem]
        simp
      rw [ih _ _ (by rw [herase]; simpa using h)]
      simp only [List.length_cons]
      omega

theorem maximal_marginal_relevance_length (sim : Vec → Vec → ℚ) (q : Vec)
    (embs : List Vec) (k : ℕ) (lam : ℚ) :
    (maximal_marginal_relevance sim q embs k lam).length = min k embs.length := by
  have h := mmrLoop_length sim q embs lam (min k embs.length)
    (List.range embs.length) [] (by simp [Nat.min_le_right])
  simpa [maximal_marginal_relevance] using h

theorem postSearch_count_le (sim : Vec → Vec → ℚ) (qe : Vec) (k : ℕ) (lam : ℚ)
    (rs : Bool) (r : StoreResult) (out : DLOutput)
    (h : postSearch sim (some qe) k true lam rs r = Except.ok out) :
    out.count ≤ min k r.text.length := by
  simp only [postSearch, if_true] at h
  have hout := Except.ok.inj h
  rw [← hout]
  cases rs with
  | true =>
    simp only [if_true, DLOutput.count, List.length_zip, List.length_map,
      maximal_marginal_relevance_length]
    omega
  | false =>
    simp [DLOutput.count, List.length_map, List.length_zip,
      maximal_marginal_relevance_length]

/-! ### Claim theorems for `DeepLake._search` -/

/-- C6: the query-embedding resolution of `_search` follows the precedence
explicit vector > explicit embedding function > configured default, and
when nothing is resolvable the `ValueError` is raised without the vector
store ever being consulted (the outcome is the same error for every store
oracle). -/
theorem deeplake_embedding_resolution_precedence (query : Option String)
    (v : Vec) (f g : String → Vec) (s : String) (hs : s ≠ "") :
    (∀ (embedding_function selfEf : Option (String → Vec)) (q : Option String),
      resolveQueryEmbedding q (some v) embedding_function selfEf
        = Except.ok (some v)) ∧
    (∀ selfEf : Option (String → Vec),
      resolveQueryEmbedding (some s) none (some f) selfEf
        = Except.ok (some (f s))) ∧
    (resolveQueryEmbedding (some s) none none (some g) = Except.ok (some (g s))) ∧
    (∀ (store : Store) (sim : Vec → Vec → ℚ) (k : ℕ) (use_mmr : Bool)
        (fetch_k : ℕ) (return_score : Bool) (lam : ℚ),
      deepLakeSearch store sim query none none none k use_mmr fetch_k
          return_score lam
        = Except.error DLError.missingEmbedder) := by
  refine ⟨fun ef se q => rfl, ?_, ?_, ?_⟩
  · intro selfEf
    simp [resolveQueryEmbedding, resolveEf, hs]
  · simp [resolveQueryEmbedding, resolveEf, hs]
  · intro store sim k use_mmr fetch_k return_score lam
    simp [deepLakeSearch, resolveQueryEmbedding, resolveEf]

/-- Witness for C6 at concrete inputs. -/
theorem deeplake_embedding_resolution_precedence_witness :
    ("q" : String) ≠ "" ∧
    ((∀ (embedding_function selfEf : Option (String → Vec)) (q : Option String),
      resolveQueryEmbedding q (some [1]) embedding_function selfEf
        = Except.ok (some [1])) ∧
    (∀ selfEf : Option (String → Vec),
      resolveQueryEmbedding (some "q") none (some (fun _ => [2])) selfEf
        = Except.ok (some ((fun _ => ([2] : Vec)) "q"))) ∧
    (resolveQueryEmbedding (some "q") none none (some (fun _ => [3]))
      = Except.ok (some ((fun _ => ([3] : Vec)) "q"))) ∧
    (∀ (store : Store) (sim : Vec → Vec → ℚ) (k : ℕ) (use_mmr : Bool)
        (fetch_k : ℕ) (return_score : Bool) (lam : ℚ),
      deepLakeSearch store sim none none none none k use_mmr fetch_k
          return_score lam
        = Except.error DLError.missingEmbedder)) :=
  ⟨by decide,
   deeplake_embedding_resolution_precedence none [1] (fun _ => [2]) (fun _ => [3])
     "q" (by decide)⟩

/-- C10: with `query = None` and `embedding = None` but a resolvable
embedding function (explicit or configured default), `_search` raises no
error — the resolution leaves the embedding as `None`, the store's search
is invoked with that `None` embedding and `k`, and the call returns a
successful result. -/
theorem deeplake_none_query_keeps_embedding_none
    (embedding_function selfEf : Option (String → Vec))
    (hef : resolveEf embedding_function selfEf ≠ none)
    (store : Store) (sim : Vec → Vec → ℚ) (k fetch_k : ℕ)
    (return_score : Bool) (lam : ℚ) :
    resolveQueryEmbedding none none embedding_function selfEf = Except.ok none ∧
    deepLakeSearch store sim none none embedding_function selfEf k false fetch_k
        return_score lam
      = postSearch sim none k false lam return_score (store none k) ∧
    (∃ out, deepLakeSearch store sim none none embedding_function selfEf k false
        fetch_k return_score lam = Except.ok out) := by
  have hres : resolveQueryEmbedding none none embedding_function selfEf
      = Except.ok none := by
    simp only [resolveQueryEmbedding]
    cases hc : resolveEf embedding_function selfEf with
    | none => exact absurd hc hef
    | some f => rfl
  have hsearch : deepLakeSearch store sim none none embedding_function selfEf k
      false fetch_k return_score lam
      = postSearch sim none k false lam return_score (store none k) := by
    simp [deepLakeSearch, hres]
  refine ⟨hres, hsearch, ?_⟩
  rw [hsearch]
  simp only [postSearch, if_false]
  exact ⟨_, rfl⟩

/-- Witness for C10 at concrete inputs. -/
theorem deeplake_none_query_keeps_embedding_none_witness :
    resolveEf (some (fun _ => ([5] : Vec))) none ≠ none ∧
    (resolveQueryEmbedding none none (some (fun _ => ([5] : Vec))) none
        = Except.ok none ∧
     deepLakeSearch (fun _ _ => StoreResult.mk [1] [[1]] [[]] ["a"])
         (fun _ _ => 0) none none (some (fun _ => ([5] : Vec))) none 4 false 20
         false (1 / 2)
       = postSearch (fun _ _ => 0) none 4 false (1 / 2) false
           ((fun (_ : Option Vec) (_ : ℕ) => StoreResult.mk [1] [[1]] [[]] ["a"])
             none 4) ∧
     (∃ out, deepLakeSearch (fun _ _ => StoreResult.mk [1] [[1]] [[]] ["a"])
         (fun _ _ => 0) none none (some (fun _ => ([5] : Vec))) none 4 false 20
         false (1 / 2) = Except.ok out)) :=
  ⟨by simp [resolveEf],
   deeplake_none_query_keeps_embedding_none (some (fun _ => [5])) none
     (by simp [resolveEf]) (fun _ _ => StoreResult.mk [1] [[1]] [[]] ["a"])
     (fun _ _ => 0) 4 20 false (1 / 2)⟩

/-- C7: with `use_maximal_marginal_relevance = True` the collaborator store
is consulted only at candidate count `fetch_k` (two stores that agree there
yield identical outcomes), the MMR selection runs with target count
`min(k, number of fetched candidates)`, and any successful result holds at
most `min(k, number of fetched candidates)` documents; without MMR the
store is consulted only at candidate count `k`. -/
theorem deeplake_mmr_fetch_k_and_result_length (s1 s2 : Store)
    (sim : Vec → Vec → ℚ) (query : Option String) (embedding : Option Vec)
    (embedding_function selfEf : Option (String → Vec)) (k fetch_k : ℕ)
    (return_score : Bool) (lam : ℚ) (qe : Vec)
    (hres : resolveQueryEmbedding query embedding embedding_function selfEf
      = Except.ok (some qe)) :
    ((∀ e, s1 e fetch_k = s2 e fetch_k) →
      deepLakeSearch s1 sim query embedding embedding_function selfEf k true
          fetch_k return_score lam
        = deepLakeSearch s2 sim query embedding embedding_function selfEf k true
          fetch_k return_score lam) ∧
    (∀ out, deepLakeSearch s1 sim query embedding embedding_function selfEf k true
          fetch_k return_score lam = Except.ok out →
      out.count ≤ min k ((s1 (some qe) fetch_k).text.length)) ∧
    ((∀ e, s1 e k = s2 e k) →
      deepLakeSearch s1 sim query embedding embedding_function selfEf k false
          fetch_k return_score lam
        = deepLakeSearch s2 sim query embedding embedding_function selfEf k false
          fetch_k return_score lam) := by
  refine ⟨?_, ?_, ?_⟩
  · intro hagree
    simp only [deepLakeSearch, hres, if_true]
    rw [hagree (some qe)]
  · intro out hout
    simp only [deepLakeSearch, hres, if_true] at hout
    exact postSearch_count_le sim qe k lam return_score _ out hout
  · intro hagree
    simp only [deepLakeSearch, hres]
    exact congrArg (fun r => postSearch sim (some qe) k false lam return_score r)
      (hagree (some qe))

/-- A concrete store oracle used by witnesses: three candidates with
distinct scores, embeddings, metadata and texts. -/
def demoStore : Store := fun _ _ =>
  { score := [10, 20, 30], embedding := [[1], [2], [3]],
    metadata := [[("m", "1")], [("m", "2")], [("m", "3")]],
    text := ["a", "b", "c"] }

/-- A concrete similarity measure used by witnesses. -/
def demoSim : Vec → Vec → ℚ := fun a b => a.headD 0 * b.headD 0

/-- Witness for C7 at concrete inputs. -/
theorem deeplake_mmr_fetch_k_and_result_length_witness :
    resolveQueryEmbedding (some "q") none (some (fun _ => [7])) none
      = Except.ok (some [7]) ∧
    (((∀ e, demoStore e 20 = demoStore e 20) →
      deepLakeSearch demoStore demoSim (some "q") none (some (fun _ => [7])) none
          2 true 20 false (1 / 2)
        = deepLakeSearch demoStore demoSim (some "q") none (some (fun _ => [7]))
          none 2 true 20 false (1 / 2)) ∧
    (∀ out, deepLakeSearch demoStore demoSim (some "q") none (some (fun _ => [7]))
          none 2 true 20 false (1 / 2) = Except.ok out →
      out.count ≤ min 2 ((demoStore (some [7]) 20).text.length)) ∧
    ((∀ e, demoStore e 2 = demoStore e 2) →
      deepLakeSearch demoStore demoSim (some "q") none (some (fun _ => [7])) none
          2 false 20 false (1 / 2)
        = deepLakeSearch demoStore demoSim (some "q") none (some (fun _ => [7]))
          none 2 false 20 false (1 / 2))) :=
  ⟨rfl, deeplake_mmr_fetch_k_and_result_length demoStore demoStore demoSim
    (some "q") none (some (fun _ => [7])) none 2 20 false (1 / 2) [7] rfl⟩

/-- C8: with MMR and `return_score=True`, the returned pairs carry, for the
`i`-th MMR-selected candidate, the collaborator store's original score of
that candidate (`scores = [scores[i] for i in indices]`) — the output is
the original score vector permuted into selection order, with no
lambda-weighted combined score attached. -/
theorem deeplake_mmr_scores_are_original (store : Store) (sim : Vec → Vec → ℚ)
    (query : Option String) (embedding : Option Vec)
    (embedding_function selfEf : Option (String → Vec)) (k fetch_k : ℕ) (lam : ℚ)
    (qe : Vec)
    (hres : resolveQueryEmbedding query embedding embedding_function selfEf
      = Except.ok (some qe)) :
    deepLakeSearch store sim query embedding embedding_function selfEf k true
        fetch_k true lam
      = Except.ok (DLOutput.scored
          ((maximal_marginal_relevance sim qe (store (some qe) fetch_k).embedding
              (min k (store (some qe) fetch_k).text.length) lam).map
            (fun i =>
              ({ page_content := (store (some qe) fetch_k).text.getD i "",
                 metadata := (store (some qe) fetch_k).metadata.getD i [] },
               (store (some qe) fetch_k).score.getD i 0)))) := by
  simp [deepLakeSearch, hres, postSearch, List.zip_map', List.map_map,
    Function.comp]

/-- Witness for C8 at concrete inputs. -/
theorem deeplake_mmr_scores_are_original_witness :
    resolveQueryEmbedding (some "p") none none (some (fun _ => [2]))
      = Except.ok (some [2]) ∧
    deepLakeSearch demoStore demoSim (some "p") none none (some (fun _ => [2])) 2
        true 20 true 1
      = Except.ok (DLOutput.scored
          ((maximal_marginal_relevance demoSim [2]
              (demoStore (some [2]) 20).embedding
              (min 2 (demoStore (some [2]) 20).text.length) 1).map
            (fun i =>
              ({ page_content := (demoStore (some [2]) 20).text.getD i "",
                 metadata := (demoStore (some [2]) 20).metadata.getD i [] },
               (demoStore (some [2]) 20).score.getD i 0)))) :=
  ⟨rfl, deeplake_mmr_scores_are_original demoStore demoSim (some "p") none none
    (some (fun _ => [2])) 2 20 1 [2] rfl⟩
